import Mathlib

/-!
Shallow embedding of the chunked audio streaming/playback pipeline of the
htn_2025 repository, covering:

* `src/frontend/Jim/services/AudioStreamingService.js`
* `src/frontend/Jim/hooks/useAudioPlayback.js`
* `src/frontend/Jim/hooks/useAudioRecording.js` (and `audioConfig`)
* `src/frontend/src/config/websocket.ts`

External media/filesystem effects (expo-av sound creation, file writes) are
abstracted as explicit outcome parameters; timers are modelled as discrete
ticks; React state setters are modelled as updates to record fields read by
subsequent steps.
-/

namespace Htn

/-! ## Configuration (`audioConfig`, AUDIO_CONFIG) -/

structure ChunkingConfig where
  chunkDurationMs : Nat
  maxChunksInMemory : Nat
  overlapMs : Nat
deriving DecidableEq

structure PlaybackConfig where
  bufferSize : Nat
  maxBufferSize : Nat
deriving DecidableEq

structure AudioConfigT where
  chunking : ChunkingConfig
  playback : PlaybackConfig
deriving DecidableEq

/-- `AUDIO_CONFIG` from `audioConfig` (recording presets omitted: no claim
touches them). -/
def AUDIO_CONFIG : AudioConfigT :=
  { chunking := { chunkDurationMs := 500, maxChunksInMemory := 20, overlapMs := 50 }
  , playback := { bufferSize := 5, maxBufferSize := 20 } }

/-! ## Data model: AudioChunk -/

/-- A transmitted audio chunk, as built in `processAudioChunk` /
`simulateIncomingAudioChunks`: `{ data, index, timestamp, duration, format }`. -/
structure AudioChunk where
  data : String
  index : Nat
  timestamp : Nat
  duration : Nat
  format : String
deriving DecidableEq

/-! ## AudioStreamingService -/

/-- A registered event callback. For the transport claims only the identity of
the callback and whether invoking it throws are observable, so a callback is
modelled by those two facts. -/
structure Handler where
  hid : Nat
  throws : Bool
deriving DecidableEq

/-- `this.listeners.get(event)` on the `Map` of listener lists, modelled as an
association list. -/
def getEvent : List (String × List Handler) → String → Option (List Handler)
  | [], _ => none
  | (k, hs) :: t, e => if k = e then some hs else getEvent t e

/-- `this.listeners.set(event, v)` (inserting at the end when absent, as a JS
`Map` does for a fresh key). -/
def setEvent : List (String × List Handler) → String → List Handler → List (String × List Handler)
  | [], e, v => [(e, v)]
  | (k, hs) :: t, e, v => if k = e then (e, v) :: t else (k, hs) :: setEvent t e v

/-- The `AudioStreamingService` singleton state. `connectionState` is the
constant `CONNECTED` and `simulationInterval` is modelled separately by
`SimState`, so only the listener map and the retained chunk buffer appear. -/
structure StreamingService where
  listeners : List (String × List Handler)
  chunkBuffer : List AudioChunk
deriving DecidableEq

/-- The freshly constructed service: empty listener map, empty buffer. -/
def initService : StreamingService := { listeners := [], chunkBuffer := [] }

/-- `AudioStreamingService.on(event, callback)`: ensure a list exists for the
event and push the callback at its end. -/
def onEvent (svc : StreamingService) (e : String) (h : Handler) : StreamingService :=
  { svc with listeners := setEvent svc.listeners e (((getEvent svc.listeners e).getD []) ++ [h]) }

/-- Register a whole list of handlers in order via `on`. -/
def registerAll (svc : StreamingService) (e : String) : List Handler → StreamingService
  | [] => svc
  | h :: t => registerAll (onEvent svc e h) e t

/-- The `callbacks.forEach(callback => callback(data))` body of `emit`: each
callback is called in list order with the payload; a callback that throws
aborts the iteration and the exception propagates out of `emit` (JS `forEach`
installs no handler around the callback). Returns the calls actually made
(callback id paired with the payload it received) and whether an exception
escaped. -/
def runHandlers (d : AudioChunk) : List Handler → List (Nat × AudioChunk) × Bool
  | [] => ([], false)
  | h :: t =>
    if h.throws then ([(h.hid, d)], true)
    else
      let r := runHandlers d t
      ((h.hid, d) :: r.1, r.2)

/-- `AudioStreamingService.emit(event, data)`. -/
def emit (svc : StreamingService) (e : String) (d : AudioChunk) :
    List (Nat × AudioChunk) × Bool :=
  match getEvent svc.listeners e with
  | none => ([], false)
  | some hs => runHandlers d hs

/-- `AudioStreamingService.sendAudioChunk(audioChunk)`: push into
`chunkBuffer`; if the length now exceeds
`AUDIO_CONFIG.chunking.maxChunksInMemory`, shift off the oldest entry. -/
def sendAudioChunk (svc : StreamingService) (c : AudioChunk) : StreamingService :=
  let b := svc.chunkBuffer ++ [c]
  { svc with chunkBuffer := if AUDIO_CONFIG.chunking.maxChunksInMemory < b.length then b.tail else b }

/-- Send a list of chunks in order through `sendAudioChunk`. -/
def sendAll (svc : StreamingService) : List AudioChunk → StreamingService
  | [] => svc
  | c :: t => sendAll (sendAudioChunk svc c) t

/-- `AudioStreamingService.getBufferedChunks()`. -/
def getBufferedChunks (svc : StreamingService) : Nat :=
  svc.chunkBuffer.length

/-- The fixed base64 string returned by `generateMockAudioChunk` (a constant
M4A header; its exact bytes play no role in any claim). -/
def mockM4AHeader : String := "AAAAGGZ0eXBpc29tAAABzGlzb21pc28yYXZjMW1wNDEAAAAAAAAAAAT4bW9vdgAAAGxtdmhkAAAAAAAAAAAAAAAAAAAAATAAAANQAAEAAAEAAAAAAAAAAAAAAAABAAAAAAAAAAAAAAAAAAAAAAAAAAAAAAAAAAAAAAAAAAAAAgAAAAAAAAAAAAAAAAAAAAAAAAAAAAAAAAAAAAAAAAADAAAB2HRyYWsAAABcdGtoZAAAAAAAAAAAAAAAAAABAAAAAAAAA1AAAAAAAAAAAAAAAAEAAAAAAAAAAAAAAAAAAAAAAAAAAAAAAAAAAAAAAAAABAAAAAAAAAAAAAAAAAAAAAAAAAAAAAAAAAAAAAAAAAABAAABwG1kaWEAAAAgbWRoZAAAAAAAAAAAAAAAAAAoBAAAAKAVeQAAAAAALWhkbHIAAAAAAAAAAHNvdW4AAAAAAAAAAAAAAABTb3VuZEhhbmRsZXIAAAABZ21pbmYAAAAQc21oZAAAAAAAAAAAAAAAJGRpbmYAAAAcZHJlZgAAAAAAAAABAAAADHVybCAAAAABAAABJ3N0YmwAAABnc3RzZAAAAAAAAAABAAAAV21wNGEAAAAAAAAAAQAAAAAAAAAAAAIAEAAAAAooAAAAOGVzZHMAAAAAA4CAgCIAAgAEgICAFEAVAAIAAAGgAAGAjgICpOQwBQYawA=="

/-- The mock chunk built inside the `setInterval` callback of
`simulateIncomingAudioChunks` for counter value `i` (timestamp abstracted to
the tick number). -/
def mkMockChunk (i : Nat) : AudioChunk :=
  { data := mockM4AHeader
  , index := i
  , timestamp := i
  , duration := AUDIO_CONFIG.chunking.chunkDurationMs
  , format := "m4a" }

/-- State of the simulation timer: the captured `chunkIndex` counter and
whether `simulationInterval` is still set. -/
structure SimState where
  chunkIndex : Nat
  intervalActive : Bool
deriving DecidableEq

/-- The state right after `simulateIncomingAudioChunks()` installs the
interval: counter 0, interval active. -/
def simInit : SimState := { chunkIndex := 0, intervalActive := true }

/-- The interval period passed to `setInterval` in
`simulateIncomingAudioChunks`. -/
def simulateIntervalMs : Nat := AUDIO_CONFIG.chunking.chunkDurationMs

/-- One firing of the interval callback: emit a mock chunk carrying the current
counter, post-increment the counter, and clear the interval once the
incremented counter reaches 10. When the interval has been cleared, a tick
does nothing. -/
def simTick (st : SimState) : SimState × Option AudioChunk :=
  if st.intervalActive then
    let c := mkMockChunk st.chunkIndex
    let idx := st.chunkIndex + 1
    if 10 ≤ idx then ({ chunkIndex := idx, intervalActive := false }, some c)
    else ({ chunkIndex := idx, intervalActive := true }, some c)
  else (st, none)

/-- Run `n` interval ticks, collecting the chunks emitted on the
`incoming_audio_chunk` event in order. -/
def simRun : Nat → SimState → SimState × List AudioChunk
  | 0, st => (st, [])
  | n + 1, st =>
    let r := simTick st
    let rest := simRun n r.1
    (rest.1, r.2.toList ++ rest.2)

/-! ## Playback reassembler (`useAudioPlayback`) -/

/-- The subset of `AUDIO_STATES` reachable by the playback hook. -/
inductive AudioState where
  | idle
  | playing
  | error
deriving DecidableEq

/-- The errors the playback claims observe through `setError`: one chunk
failed to decode/play (`playAudioChunk`'s catch), or stopping/unloading the
referenced sound failed (`stopPlayback`'s catch). -/
inductive PlayErr where
  | chunkPlay
  | stopFail
deriving DecidableEq

/-- The expo-av sound object as observed by the hook: which chunk it was
created from, the volume it was created/updated with, and whether it is still
loaded. -/
structure Sound where
  sid : Nat
  vol : ℚ
  loaded : Bool
deriving DecidableEq

/-- State of the `useAudioPlayback` hook: the `useState` values
(`isPlaying`, `playbackState`, `error`, `volume`, `bufferedChunks`) and the
refs (`soundRef`, `audioQueueRef`, `isProcessingRef`). -/
structure PlaybackState where
  isPlaying : Bool
  playbackState : AudioState
  perr : Option PlayErr
  volume : ℚ
  bufferedChunks : Nat
  sound : Option Sound
  audioQueue : List AudioChunk
  isProcessing : Bool
deriving DecidableEq

/-- The hook's initial state. -/
def initPlayback : PlaybackState :=
  { isPlaying := false, playbackState := .idle, perr := none, volume := 1
  , bufferedChunks := 0, sound := none, audioQueue := [], isProcessing := false }

/-- `handleIncomingAudioChunk(audioChunk)`: push onto `audioQueueRef`, publish
the new length through `setBufferedChunks`, and report whether the guard
`!isProcessingRef.current && (queue.length >= AUDIO_CONFIG.playback.bufferSize
|| isPlaying)` fires, i.e. whether `processAudioQueue()` is invoked. -/
def handleIncomingAudioChunk (s : PlaybackState) (c : AudioChunk) : PlaybackState × Bool :=
  let q := s.audioQueue ++ [c]
  let s1 := { s with audioQueue := q, bufferedChunks := q.length }
  (s1, !s1.isProcessing && (decide (AUDIO_CONFIG.playback.bufferSize ≤ q.length) || s1.isPlaying))

/-- Deliver a list of chunks in order through `handleIncomingAudioChunk`,
collecting each call's drain-start decision. -/
def arriveList : PlaybackState → List AudioChunk → PlaybackState × List Bool
  | s, [] => (s, [])
  | s, c :: cs =>
    let r := handleIncomingAudioChunk s c
    let rest := arriveList r.1 cs
    (rest.1, r.2 :: rest.2)

/-- `playAudioChunk(audioChunk)` with the outcome of the external
write/decode/play step made explicit. On success: a sound is created with the
persisted volume (`{ shouldPlay: true, volume }`), stored in `soundRef`,
`setIsPlaying(true)` runs, and after the end-of-playback signal the sound is
unloaded (the ref keeps pointing at the unloaded object; the code never nulls
it here). On failure the catch block runs `setError` and the function returns
normally — it never throws to its caller. -/
def playAudioChunk (s : PlaybackState) (c : AudioChunk) (ok : Bool) : PlaybackState :=
  if ok then
    { s with sound := some { sid := c.index, vol := s.volume, loaded := false }
           , isPlaying := true }
  else
    { s with perr := some PlayErr.chunkPlay }

/-- The `while (audioQueueRef.current.length > 0)` body of
`processAudioQueue`: shift the head, publish the shrunken length, play the
chunk (consuming one external outcome per chunk, defaulting to success), and
continue with the rest. Returns the chunks the play step was invoked on, in
order. -/
def drainGo : List AudioChunk → List Bool → PlaybackState → PlaybackState × List AudioChunk
  | [], _, s => (s, [])
  | c :: rest, outs, s =>
    let s1 := { s with audioQueue := rest, bufferedChunks := rest.length }
    let s2 := playAudioChunk s1 c (outs.headD true)
    let r := drainGo rest outs.tail s2
    (r.1, c :: r.2)

/-- `processAudioQueue()`: return immediately when already processing or the
queue is empty; otherwise set `isProcessingRef`, enter the `PLAYING` state,
drain the queue, and in the `finally` block clear `isProcessingRef`, return to
`IDLE` and clear `isPlaying`. Because `playAudioChunk` never throws, the
catch block of `processAudioQueue` is unreachable. -/
def processAudioQueue (s : PlaybackState) (outs : List Bool) : PlaybackState × List AudioChunk :=
  if s.isProcessing || s.audioQueue.isEmpty then (s, [])
  else
    let s0 := { s with isProcessing := true, playbackState := .playing }
    let r := drainGo s0.audioQueue outs s0
    ({ r.1 with isProcessing := false, playbackState := .idle, isPlaying := false }, r.2)

/-- External media operations issued by `stopPlayback`. -/
inductive MediaOp where
  | stopSound (sid : Nat)
  | unloadSound (sid : Nat)
deriving DecidableEq

/-- `stopPlayback()` with the outcomes of the two awaited media calls made
explicit. The whole body sits in one try block. When a sound is referenced,
`stopAsync` and then `unloadAsync` are awaited first: if either rejects
(`stopOk` / `unloadOk` false), control jumps to the catch, which only runs
`setError` — none of the later statements execute, so the reference, queue,
flags, buffered count and state are left exactly as they were. Only when
both calls resolve (or when no sound is referenced, so neither call is
made) does the body continue: the ref is nulled, `audioQueueRef` cleared,
`isProcessingRef` cleared, `bufferedChunks` reset to 0, `isPlaying` cleared
and the state set to `IDLE`. Also returns the media calls issued (a
rejected `stopAsync` means `unloadAsync` is never issued). -/
def stopPlayback (s : PlaybackState) (stopOk unloadOk : Bool) :
    PlaybackState × List MediaOp :=
  match s.sound with
  | none =>
    ({ s with sound := none
            , audioQueue := []
            , isProcessing := false
            , bufferedChunks := 0
            , isPlaying := false
            , playbackState := .idle }, [])
  | some snd =>
    if stopOk then
      if unloadOk then
        ({ s with sound := none
                , audioQueue := []
                , isProcessing := false
                , bufferedChunks := 0
                , isPlaying := false
                , playbackState := .idle },
         [MediaOp.stopSound snd.sid, MediaOp.unloadSound snd.sid])
      else
        ({ s with perr := some PlayErr.stopFail },
         [MediaOp.stopSound snd.sid, MediaOp.unloadSound snd.sid])
    else
      ({ s with perr := some PlayErr.stopFail }, [MediaOp.stopSound snd.sid])

/-- `adjustVolume(newVolume)`: values outside `[0, 1]` return before touching
any state; otherwise `setVolume` persists the value and, when a sound is
referenced, `setVolumeAsync` applies it to that sound. -/
def adjustVolume (s : PlaybackState) (v : ℚ) : PlaybackState :=
  if v < 0 ∨ 1 < v then s
  else
    { s with volume := v
           , sound := s.sound.map fun snd => { snd with vol := v } }

/-! ## Capture chunker (`useAudioRecording`) -/

/-- The chunk assembled by `processAudioChunk(uri, chunkIndex)` after reading
the finalized recording back as base64 (capture time abstracted away as 0). -/
def mkRecordedChunk (idx : Nat) (base64Audio : String) : AudioChunk :=
  { data := base64Audio
  , index := idx
  , timestamp := 0
  , duration := AUDIO_CONFIG.chunking.chunkDurationMs
  , format := "m4a" }

/-- `stopCurrentChunk(recording)` together with the `processAudioChunk` it
awaits, acting on the session's chunk counter (`chunkCountRef`). `uri` is
`some data` when `stopAndUnloadAsync` succeeded and `getURI()` returned a
URI whose contents would read back as `data`; `none` when the stop threw
(caught and logged) or the URI was null — in that case nothing happens.
With a URI present, the counter is incremented FIRST (`chunkCountRef++` and
`setChunksRecorded` run as soon as the URI is seen); only then does
`processAudioChunk` run `readAsStringAsync`, whose outcome is `readOk`. On
read success a chunk carrying the just-incremented counter as its `index`
is handed to `AudioStreamingService.sendAudioChunk`; a read failure is
caught inside `processAudioChunk` and emits nothing, but the counter stays
advanced. -/
def stopCurrentChunk (count : Nat) (uri : Option String) (readOk : Bool) :
    Nat × Option AudioChunk :=
  match uri with
  | none => (count, none)
  | some u =>
    if readOk then (count + 1, some (mkRecordedChunk (count + 1) u))
    else (count + 1, none)

/-- Run a recording session: fold `stopCurrentChunk` over the per-chunk
outcomes (finalized URI, read outcome), starting from counter value `count`,
collecting the chunks handed to `AudioStreamingService.sendAudioChunk` in
order. -/
def runRecordingSession : Nat → List (Option String × Bool) → Nat × List AudioChunk
  | count, [] => (count, [])
  | count, o :: os =>
    let r := stopCurrentChunk count o.1 o.2
    let rest := runRecordingSession r.1 os
    (rest.1, r.2.toList ++ rest.2)

/-! ## WebSocket URL configuration (`src/frontend/src/config/websocket.ts`)

URLs are modelled as `List Char` so that protocol prefixes can be reasoned
about by list concatenation. -/

/-- The characters of `wss://`. -/
def wssProto : List Char := ['w', 's', 's', ':', '/', '/']

/-- The characters of `ws://`. -/
def wsProto : List Char := ['w', 's', ':', '/', '/']

/-- The fallback `ws://localhost:8000`. -/
def websocketDefault : List Char := "ws://localhost:8000".toList

/-- `baseUrl.replace(/^wss?:\/\//, '')`: the regex matches greedily, so a
leading `wss://` (6 chars) is removed first, else a leading `ws://`
(5 chars), else nothing. -/
def stripProto (u : List Char) : List Char :=
  if wssProto.isPrefixOf u then u.drop 6
  else if wsProto.isPrefixOf u then u.drop 5
  else u

/-- JS truthiness of `process.env.NEXT_PUBLIC_WEBSOCKET_URL`: an unset
variable and the empty string are both falsy. -/
def envTruthy : Option (List Char) → Bool
  | some u => !u.isEmpty
  | none => false

/-- `getWebSocketUrl(endpoint)` with the environment variable made an explicit
argument. `config.websocketUrl` is `env || 'ws://localhost:8000'` (the JS
`||` falls back on the empty string too); when the variable is truthy the
protocol is forced to `wss://`, otherwise the protocol is `wss://` only when
the base already starts with it, else `ws://`. -/
def getWebSocketUrl (env : Option (List Char)) (endpoint : List Char) : List Char :=
  let baseUrl := match env with
    | some u => if u.isEmpty then websocketDefault else u
    | none => websocketDefault
  if envTruthy env then
    wssProto ++ stripProto baseUrl ++ endpoint
  else
    let protocol := if wssProto.isPrefixOf baseUrl then wssProto else wsProto
    protocol ++ stripProto baseUrl ++ endpoint

/-! ## Concrete fixtures used by witnesses and counterexamples -/

/-- A small concrete chunk with a given index. -/
def smallChunk (i : Nat) : AudioChunk :=
  { data := "x", index := i, timestamp := 0, duration := 500, format := "m4a" }

/-- A playback state with playback active and the drain loop not running. -/
def exPlaying : PlaybackState := { initPlayback with isPlaying := true }

/-- A playback state mid-stream: a loaded sound, a queued chunk, the drain
loop marked running. -/
def exPlaybackSound : PlaybackState :=
  { isPlaying := true, playbackState := .playing, perr := none, volume := 1
  , bufferedChunks := 1, sound := some { sid := 3, vol := 1, loaded := true }
  , audioQueue := [smallChunk 4], isProcessing := true }

/-- A playback state with three chunks queued and the drain loop idle. -/
def exQueued : PlaybackState :=
  { initPlayback with
      audioQueue := [smallChunk 1, smallChunk 2, smallChunk 3]
    , bufferedChunks := 3 }

/-- A handler whose callback throws. -/
def cexThrowing : Handler := { hid := 0, throws := true }

/-- A handler whose callback returns normally. -/
def cexOk : Handler := { hid := 1, throws := false }

/-- A service with a throwing handler registered before a normal one on the
`incoming_audio_chunk` event. -/
def cexService : StreamingService :=
  onEvent (onEvent initService "incoming_audio_chunk" cexThrowing) "incoming_audio_chunk" cexOk

/-! ## Helper lemmas -/

theorem getEvent_setEvent (ls : List (String × List Handler)) (e : String) (v : List Handler) :
    getEvent (setEvent ls e v) e = some v := by
  induction ls with
  | nil => simp [setEvent, getEvent]
  | cons kv t ih =>
    obtain ⟨k, hs⟩ := kv
    by_cases hk : k = e
    · simp [setEvent, getEvent, hk]
    · simp [setEvent, getEvent, hk, ih]

theorem onEvent_getEvent (svc : StreamingService) (e : String) (h : Handler) :
    getEvent (onEvent svc e h).listeners e
      = some (((getEvent svc.listeners e).getD []) ++ [h]) := by
  simp [onEvent, getEvent_setEvent]

theorem registerAll_getEvent (ls : List Handler) (svc : StreamingService) (e : String)
    (hs : List Handler) (h : getEvent svc.listeners e = some hs) :
    getEvent (registerAll svc e ls).listeners e = some (hs ++ ls) := by
  induction ls generalizing svc hs with
  | nil => simpa [registerAll] using h
  | cons x t ih =>
    have h1 : getEvent (onEvent svc e x).listeners e = some (hs ++ [x]) := by
      rw [onEvent_getEvent, h]; rfl
    have h2 := ih (onEvent svc e x) (hs ++ [x]) h1
    simpa [registerAll, List.append_assoc] using h2

theorem emit_registerAll_init (ls : List Handler) (e : String) (d : AudioChunk) :
    emit (registerAll initService e ls) e d = runHandlers d ls := by
  cases ls with
  | nil => rfl
  | cons x t =>
    have h1 : getEvent (onEvent initService e x).listeners e = some [x] := by
      rw [onEvent_getEvent]; rfl
    have h2 := registerAll_getEvent t (onEvent initService e x) e [x] h1
    simp [registerAll, emit, h2]

theorem runHandlers_no_throw (d : AudioChunk) (ls : List Handler)
    (h : ∀ x ∈ ls, x.throws = false) :
    runHandlers d ls = (ls.map fun x => (x.hid, d), false) := by
  induction ls with
  | nil => rfl
  | cons x t ih =>
    have hx : x.throws = false := h x (List.mem_cons_self x t)
    have ht := ih fun y hy => h y (List.mem_cons_of_mem x hy)
    simp [runHandlers, hx, ht]

theorem runHandlers_throw_split (d : AudioChunk) (pre : List Handler) (t : Handler)
    (post : List Handler) (hpre : ∀ x ∈ pre, x.throws = false) (ht : t.throws = true) :
    runHandlers d (pre ++ t :: post) = ((pre ++ [t]).map fun x => (x.hid, d), true) := by
  induction pre with
  | nil => simp [runHandlers, ht]
  | cons x xs ih =>
    have hx : x.throws = false := hpre x (List.mem_cons_self x xs)
    have hxs := ih fun y hy => hpre y (List.mem_cons_of_mem x hy)
    simp [runHandlers, hx, hxs]

theorem arriveList_state (cs : List AudioChunk) (s : PlaybackState) :
    (arriveList s cs).1.audioQueue = s.audioQueue ++ cs
    ∧ (arriveList s cs).1.isProcessing = s.isProcessing
    ∧ (arriveList s cs).1.isPlaying = s.isPlaying := by
  induction cs generalizing s with
  | nil => simp [arriveList]
  | cons c t ih =>
    have h := ih (handleIncomingAudioChunk s c).1
    simpa [arriveList, handleIncomingAudioChunk] using h

theorem arriveList_flags (cs : List AudioChunk) (s : PlaybackState)
    (hp : s.isPlaying = false) (hr : s.isProcessing = false) :
    (arriveList s cs).2
      = (List.range cs.length).map
          fun k => decide (AUDIO_CONFIG.playback.bufferSize ≤ s.audioQueue.length + (k + 1)) := by
  induction cs generalizing s with
  | nil => simp [arriveList]
  | cons c t ih =>
    have hstep := ih (handleIncomingAudioChunk s c).1
      (by simpa [handleIncomingAudioChunk] using hp)
      (by simpa [handleIncomingAudioChunk] using hr)
    have hq : (handleIncomingAudioChunk s c).1.audioQueue.length
        = s.audioQueue.length + 1 := by
      simp [handleIncomingAudioChunk]
    rw [hq] at hstep
    simp only [arriveList, hstep, List.length_cons, List.range_succ_eq_map, List.map_cons,
      List.map_map]
    congr 1
    · simp [handleIncomingAudioChunk, hp, hr]
    · apply List.map_congr_left
      intro k _
      simp only [Function.comp_apply, Nat.succ_eq_add_one, decide_eq_decide]
      omega

theorem drainGo_plays_queue (q : List AudioChunk) (outs : List Bool) (s : PlaybackState) :
    (drainGo q outs s).2 = q := by
  induction q generalizing outs s with
  | nil => rfl
  | cons c rest ih => simp [drainGo, ih]

theorem drainGo_keeps_err (q : List AudioChunk) (outs : List Bool) (s : PlaybackState)
    (h : s.perr = some PlayErr.chunkPlay) :
    (drainGo q outs s).1.perr = some PlayErr.chunkPlay := by
  induction q generalizing outs s with
  | nil => simpa [drainGo] using h
  | cons c rest ih =>
    simp only [drainGo]
    apply ih
    cases outs with
    | nil => simpa [List.headD, playAudioChunk] using h
    | cons o os =>
      cases o with
      | false => simp [List.headD, playAudioChunk]
      | true => simpa [List.headD, playAudioChunk] using h

theorem drainGo_fail_err (q : List AudioChunk) (outs : List Bool) (s : PlaybackState)
    (j : Nat) (hj : j < q.length) (hf : outs.getD j true = false) :
    (drainGo q outs s).1.perr = some PlayErr.chunkPlay := by
  induction q generalizing outs s j with
  | nil => simp at hj
  | cons c rest ih =>
    cases j with
    | zero =>
      cases outs with
      | nil => simp [List.getD] at hf
      | cons o os =>
        simp only [List.getD_cons_zero] at hf
        simp only [drainGo]
        apply drainGo_keeps_err
        simp [playAudioChunk, hf]
    | succ j =>
      cases outs with
      | nil => simp [List.getD] at hf
      | cons o os =>
        simp only [List.getD_cons_succ] at hf
        simp only [drainGo, List.headD, List.tail]
        exact ih os _ j (by simpa using hj) hf

theorem sendAll_chunkBuffer (cs : List AudioChunk) (svc : StreamingService)
    (hb : svc.chunkBuffer.length ≤ 20) :
    (sendAll svc cs).chunkBuffer
      = (svc.chunkBuffer ++ cs).drop (svc.chunkBuffer.length + cs.length - 20) := by
  induction cs generalizing svc with
  | nil =>
    have h0 : svc.chunkBuffer.length + ([] : List AudioChunk).length - 20 = 0 := by
      simp
      omega
    rw [h0]
    simp [sendAll]
  | cons c t ih =>
    by_cases hlt : svc.chunkBuffer.length < 20
    · have hcond : ¬ (AUDIO_CONFIG.chunking.maxChunksInMemory
          < (svc.chunkBuffer ++ [c]).length) := by
        show ¬ (20 < (svc.chunkBuffer ++ [c]).length)
        simp
        omega
      have hstep : sendAudioChunk svc c
          = { svc with chunkBuffer := svc.chunkBuffer ++ [c] } := by
        simp only [sendAudioChunk, if_neg hcond]
      have h3 := ih (sendAudioChunk svc c) (by rw [hstep]; simp; omega)
      rw [hstep] at h3
      simp only at h3
      have hidx : (svc.chunkBuffer ++ [c]).length + t.length - 20
          = svc.chunkBuffer.length + (c :: t).length - 20 := by simp; omega
      rw [hidx, List.append_assoc, List.singleton_append] at h3
      rw [show sendAll svc (c :: t) = sendAll (sendAudioChunk svc c) t from rfl, hstep]
      exact h3
    · have heq : svc.chunkBuffer.length = 20 := by omega
      have hcond : AUDIO_CONFIG.chunking.maxChunksInMemory
          < (svc.chunkBuffer ++ [c]).length := by
        show 20 < (svc.chunkBuffer ++ [c]).length
        simp
        omega
      have hstep : sendAudioChunk svc c
          = { svc with chunkBuffer := (svc.chunkBuffer ++ [c]).tail } := by
        simp only [sendAudioChunk, if_pos hcond]
      have hlen2 : ((svc.chunkBuffer ++ [c]).tail).length = 20 := by
        simp [List.length_tail]
        omega
      have h3 := ih (sendAudioChunk svc c) (by rw [hstep]; simp only; rw [hlen2])
      rw [hstep] at h3
      simp only at h3
      rw [hlen2] at h3
      rw [← List.drop_one] at h3
      rw [← List.drop_append_of_le_length
        (by simp : 1 ≤ (svc.chunkBuffer ++ [c]).length)] at h3
      rw [List.drop_drop] at h3
      have hidx : 1 + (20 + t.length - 20)
          = svc.chunkBuffer.length + (c :: t).length - 20 := by
        simp [heq]
        omega
      rw [hidx, List.append_assoc, List.singleton_append] at h3
      rw [List.drop_one] at h3
      rw [show sendAll svc (c :: t) = sendAll (sendAudioChunk svc c) t from rfl, hstep]
      exact h3

theorem runRecordingSession_all_ok (os : List (Option String × Bool)) (count : Nat) :
    (∀ p ∈ os, p.1.isSome = true → p.2 = true) →
    (runRecordingSession count os).2.map AudioChunk.index
      = List.range' (count + 1) (runRecordingSession count os).2.length
    ∧ (runRecordingSession count os).1 = count + (runRecordingSession count os).2.length := by
  induction os generalizing count with
  | nil =>
    intro h
    simp [runRecordingSession]
  | cons o t ih =>
    intro h
    obtain ⟨u, r⟩ := o
    have ht : ∀ p ∈ t, p.1.isSome = true → p.2 = true :=
      fun p hp => h p (List.mem_cons_of_mem _ hp)
    cases u with
    | none =>
      have hrec := ih count ht
      simpa [runRecordingSession, stopCurrentChunk] using hrec
    | some u =>
      have hr : r = true := h (some u, r) (List.mem_cons_self _ _) rfl
      subst hr
      have hrec := ih (count + 1) ht
      refine ⟨?_, ?_⟩
      · simp only [runRecordingSession, stopCurrentChunk, if_true, Option.toList_some,
          List.singleton_append, List.map_cons, List.length_cons, hrec.1,
          List.range'_succ, mkRecordedChunk]
      · simp only [runRecordingSession, stopCurrentChunk, if_true, Option.toList_some,
          List.singleton_append, List.length_cons, hrec.2]
        omega

theorem runRecordingSession_bounds (os : List (Option String × Bool)) (count : Nat) :
    count ≤ (runRecordingSession count os).1
    ∧ (∀ c ∈ (runRecordingSession count os).2,
        count + 1 ≤ c.index ∧ c.index ≤ (runRecordingSession count os).1)
    ∧ List.Pairwise (fun a b => a < b)
        ((runRecordingSession count os).2.map AudioChunk.index)
    ∧ (runRecordingSession count os).2.length
      ≤ (runRecordingSession count os).1 - count := by
  induction os generalizing count with
  | nil => simp [runRecordingSession]
  | cons o t ih =>
    obtain ⟨u, r⟩ := o
    cases u with
    | none =>
      have h := ih count
      simpa [runRecordingSession, stopCurrentChunk] using h
    | some u =>
      cases r with
      | false =>
        have hstep : stopCurrentChunk count (some u) false = (count + 1, none) := rfl
        have h := ih (count + 1)
        simp only [runRecordingSession, hstep,
          Option.toList_none, List.nil_append] at h ⊢
        refine ⟨by omega, fun c hc => ?_, h.2.2.1, by omega⟩
        have := h.2.1 c hc
        omega
      | true =>
        have hstep : stopCurrentChunk count (some u) true
            = (count + 1, some (mkRecordedChunk (count + 1) u)) := rfl
        have h := ih (count + 1)
        simp only [runRecordingSession, hstep,
          Option.toList_some, List.singleton_append, List.map_cons,
          List.length_cons, List.mem_cons, List.pairwise_cons] at h ⊢
        refine ⟨by omega, ?_, ⟨?_, h.2.2.1⟩, by omega⟩
        · rintro c (hc | hc)
          · subst hc
            simp only [mkRecordedChunk]
            omega
          · have := h.2.1 c hc
            omega
        · intro i hi
          obtain ⟨c, hc, hidx⟩ := List.mem_map.mp hi
          have := h.2.1 c hc
          simp only [mkRecordedChunk]
          omega

theorem simRun_inactive (n : Nat) (i : Nat) :
    simRun n { chunkIndex := i, intervalActive := false }
      = ({ chunkIndex := i, intervalActive := false }, []) := by
  induction n with
  | zero => rfl
  | succ n ih => simp [simRun, simTick, ih]

theorem simRun_active (n k : Nat) (hk : k < 10) (hn : 10 - k ≤ n) :
    (simRun n { chunkIndex := k, intervalActive := true }).2.map AudioChunk.index
      = List.range' k (10 - k)
    ∧ (simRun n { chunkIndex := k, intervalActive := true }).1
      = { chunkIndex := 10, intervalActive := false } := by
  induction n generalizing k with
  | zero => omega
  | succ n ih =>
    by_cases hlast : k + 1 = 10
    · have hk9 : k = 9 := by omega
      subst hk9
      have htick : simTick { chunkIndex := 9, intervalActive := true }
          = ({ chunkIndex := 10, intervalActive := false }, some (mkMockChunk 9)) := by
        simp [simTick]
      simp [simRun, htick, simRun_inactive, mkMockChunk]
    · have hcont : ¬ 10 ≤ k + 1 := by omega
      have htick : simTick { chunkIndex := k, intervalActive := true }
          = ({ chunkIndex := k + 1, intervalActive := true }, some (mkMockChunk k)) := by
        simp [simTick, hcont]
      have h := ih (k + 1) (by omega) (by omega)
      have h10 : 10 - k = (10 - (k + 1)) + 1 := by omega
      refine ⟨?_, ?_⟩
      · simp only [simRun, htick, Option.toList_some, List.singleton_append,
          List.map_cons, h.1, mkMockChunk]
        rw [h10, List.range'_succ]
      · simpa [simRun, htick] using h.2

/-! ## Claim theorems -/

/-- C1 (counterexample): with a throwing handler registered before a normal
one on `incoming_audio_chunk`, `emit` calls only the first handler — the
exception escapes the bare `forEach` and the later registered handler is
never invoked, refuting the failure-isolation part of the claim. -/
theorem emit_throw_blocks_later_handler :
    (emit cexService "incoming_audio_chunk" (smallChunk 0)).1 = [(0, smallChunk 0)]
    ∧ (emit cexService "incoming_audio_chunk" (smallChunk 0)).2 = true
    ∧ (emit cexService "incoming_audio_chunk" (smallChunk 0)).1.map Prod.fst ≠ [0, 1] := by
  refine ⟨rfl, rfl, ?_⟩
  decide

/-- C1 (amended): `emit(eventName, payload)` invokes the handlers registered
via `on`, in registration order and each with `payload`, up to and including
the first handler that throws. When no handler throws, every registered
handler is invoked; when one throws, the exception propagates out of `emit`
and the handlers registered after it are not invoked. -/
theorem emit_invokes_in_registration_order (ls : List Handler) (e : String) (d : AudioChunk) :
    ((∀ x ∈ ls, x.throws = false) →
      (emit (registerAll initService e ls) e d).1 = ls.map (fun x => (x.hid, d))
      ∧ (emit (registerAll initService e ls) e d).2 = false)
    ∧ (∀ pre t post, ls = pre ++ t :: post →
        (∀ x ∈ pre, x.throws = false) → t.throws = true →
        (emit (registerAll initService e ls) e d).1 = (pre ++ [t]).map (fun x => (x.hid, d))
        ∧ (emit (registerAll initService e ls) e d).2 = true) := by
  rw [emit_registerAll_init]
  constructor
  · intro h
    rw [runHandlers_no_throw d ls h]
    exact ⟨rfl, rfl⟩
  · intro pre t post hsplit hpre ht
    subst hsplit
    rw [runHandlers_throw_split d pre t post hpre ht]
    exact ⟨rfl, rfl⟩

/-- C1 (witness): two non-throwing handlers are both invoked in order with
the payload; with a throwing handler in the middle, exactly the handlers up
to and including it are invoked. -/
theorem emit_invokes_in_registration_order_witness :
    (emit (registerAll initService "e" [{ hid := 5, throws := false }, { hid := 7, throws := false }])
        "e" (smallChunk 0)).1
      = [(5, smallChunk 0), (7, smallChunk 0)]
    ∧ (emit (registerAll initService "e"
          [{ hid := 4, throws := false }, { hid := 6, throws := true }, { hid := 8, throws := false }])
        "e" (smallChunk 1)).1
      = [(4, smallChunk 1), (6, smallChunk 1)] := by
  constructor
  · exact ((emit_invokes_in_registration_order
      [{ hid := 5, throws := false }, { hid := 7, throws := false }] "e" (smallChunk 0)).1
      (by decide)).1
  · exact ((emit_invokes_in_registration_order
      [{ hid := 4, throws := false }, { hid := 6, throws := true }, { hid := 8, throws := false }]
      "e" (smallChunk 1)).2
      [{ hid := 4, throws := false }] { hid := 6, throws := true } [{ hid := 8, throws := false }]
      rfl (by decide) rfl).1

/-- C2 (counterexample): when the referenced sound's `stopAsync` rejects —
reachable in an ordinary run, e.g. calling `stopPlayback` after a drain has
finished, when `soundRef` still points at the sound `playAudioChunk` already
unloaded — the catch runs `setError` and returns: the queue is NOT cleared,
the reference is NOT nulled, the buffered count stays, and the playing flag
stays set, refuting the claim's unconditional postcondition at this concrete
state. -/
theorem stopPlayback_fail_cex :
    (stopPlayback exPlaybackSound false true).1.audioQueue = [smallChunk 4]
    ∧ (stopPlayback exPlaybackSound false true).1.audioQueue ≠ []
    ∧ (stopPlayback exPlaybackSound false true).1.sound
        = some { sid := 3, vol := 1, loaded := true }
    ∧ (stopPlayback exPlaybackSound false true).1.isPlaying = true
    ∧ (stopPlayback exPlaybackSound false true).1.bufferedChunks = 1
    ∧ (stopPlayback exPlaybackSound false true).1.perr = some PlayErr.stopFail := by
  refine ⟨rfl, by decide, rfl, rfl, rfl, rfl⟩

/-- C2 (amended): after `stopPlayback()`, when no playback unit is
referenced, or when stopping and unloading the referenced unit both
succeed, the queue is empty, the unit was stopped then released and its
reference cleared, the buffered-chunk count reads 0, the playing flag is
false and the state is idle; but when `stopAsync` or `unloadAsync` rejects,
the failure is caught and reported through the error channel and the queue,
flags, reference and state are left unchanged. -/
theorem stopPlayback_clears_state (s : PlaybackState) (stopOk unloadOk : Bool) :
    ((s.sound = none ∨ stopOk = true ∧ unloadOk = true) →
      (stopPlayback s stopOk unloadOk).1.audioQueue = []
      ∧ (stopPlayback s stopOk unloadOk).1.sound = none
      ∧ (stopPlayback s stopOk unloadOk).1.bufferedChunks = 0
      ∧ (stopPlayback s stopOk unloadOk).1.isPlaying = false
      ∧ (stopPlayback s stopOk unloadOk).1.playbackState = AudioState.idle)
    ∧ (∀ snd, s.sound = some snd → stopOk = true → unloadOk = true →
        (stopPlayback s stopOk unloadOk).2
          = [MediaOp.stopSound snd.sid, MediaOp.unloadSound snd.sid])
    ∧ (s.sound = none → (stopPlayback s stopOk unloadOk).2 = [])
    ∧ (∀ snd, s.sound = some snd → (stopOk = false ∨ unloadOk = false) →
        (stopPlayback s stopOk unloadOk).1
          = { s with perr := some PlayErr.stopFail }) := by
  refine ⟨?_, ?_, ?_, ?_⟩
  · rintro (hnone | ⟨hs, hu⟩)
    · simp [stopPlayback, hnone]
    · subst hs
      subst hu
      cases hsnd : s.sound with
      | none => simp [stopPlayback, hsnd]
      | some snd => simp [stopPlayback, hsnd]
  · intro snd hsnd hs hu
    subst hs
    subst hu
    simp [stopPlayback, hsnd]
  · intro hnone
    simp [stopPlayback, hnone]
  · rintro snd hsnd (hs | hu)
    · subst hs
      simp [stopPlayback, hsnd]
    · subst hu
      cases hs : stopOk <;> simp [stopPlayback, hsnd, hs]

/-- C2 (witness): on a mid-stream state with a referenced sound and a queued
chunk, a fully successful `stopPlayback` clears everything and issues
stop-then-unload, while a rejected `stopAsync` leaves the state with only
the error recorded. -/
theorem stopPlayback_clears_state_witness :
    (stopPlayback exPlaybackSound true true).1.audioQueue = []
    ∧ (stopPlayback exPlaybackSound true true).1.sound = none
    ∧ (stopPlayback exPlaybackSound true true).2
        = [MediaOp.stopSound 3, MediaOp.unloadSound 3]
    ∧ (stopPlayback exPlaybackSound false true).1
        = { exPlaybackSound with perr := some PlayErr.stopFail } := by
  refine ⟨?_, ?_, ?_, ?_⟩
  · exact ((stopPlayback_clears_state exPlaybackSound true true).1 (Or.inr ⟨rfl, rfl⟩)).1
  · exact ((stopPlayback_clears_state exPlaybackSound true true).1 (Or.inr ⟨rfl, rfl⟩)).2.1
  · exact (stopPlayback_clears_state exPlaybackSound true true).2.1
      { sid := 3, vol := 1, loaded := true } rfl rfl rfl
  · exact (stopPlayback_clears_state exPlaybackSound false true).2.2.2
      { sid := 3, vol := 1, loaded := true } rfl (Or.inl rfl)

/-- C3: starting from an empty queue with playback inactive and the drain
loop idle, the k-th `handleIncomingAudioChunk` call (k counted from 1)
starts the drain exactly when k has reached
`AUDIO_CONFIG.playback.bufferSize` = 5, so the drain does not begin before
the queue holds 5 chunks; and when playback is already active (and the drain
loop is not running), an arriving chunk is appended and the drain starts
regardless of queue length. -/
theorem drain_buffering_threshold (s : PlaybackState) (cs : List AudioChunk) (c : AudioChunk) :
    (s.audioQueue = [] → s.isPlaying = false → s.isProcessing = false →
      (arriveList s cs).2
        = (List.range cs.length).map fun k => decide (AUDIO_CONFIG.playback.bufferSize ≤ k + 1))
    ∧ (s.isPlaying = true → s.isProcessing = false →
        (handleIncomingAudioChunk s c).2 = true
        ∧ (handleIncomingAudioChunk s c).1.audioQueue = s.audioQueue ++ [c]) := by
  constructor
  · intro hq hp hr
    have h := arriveList_flags cs s hp hr
    rw [hq] at h
    simpa using h
  · intro hp hr
    constructor
    · simp [handleIncomingAudioChunk, hp, hr]
    · rfl

/-- C3 (witness): the first four arrivals do not start the drain, the fifth
and sixth do; and with playback active a single arrival starts it at queue
length 1. -/
theorem drain_buffering_threshold_witness :
    (arriveList initPlayback
        [smallChunk 0, smallChunk 1, smallChunk 2, smallChunk 3, smallChunk 4, smallChunk 5]).2
      = [false, false, false, false, true, true]
    ∧ (handleIncomingAudioChunk exPlaying (smallChunk 9)).2 = true := by
  constructor
  · have h := (drain_buffering_threshold initPlayback
      [smallChunk 0, smallChunk 1, smallChunk 2, smallChunk 3, smallChunk 4, smallChunk 5]
      (smallChunk 9)).1 rfl rfl rfl
    rw [h]
    decide
  · exact ((drain_buffering_threshold exPlaying [] (smallChunk 9)).2 rfl rfl).1

theorem processAudioQueue_plays (t : PlaybackState) (outs : List Bool)
    (hr : t.isProcessing = false) :
    (processAudioQueue t outs).2 = t.audioQueue := by
  cases hq : t.audioQueue with
  | nil =>
    have he : t.audioQueue.isEmpty = true := by rw [hq]; rfl
    simp [processAudioQueue, hr, he, hq]
  | cons a b =>
    have he : t.audioQueue.isEmpty = false := by rw [hq]; rfl
    simp [processAudioQueue, hr, he, drainGo_plays_queue, hq]

/-- C4: chunks delivered through `handleIncomingAudioChunk` from an empty
queue are played by the drain loop in exactly their arrival order, one after
the other, whatever their `index` fields and whatever the per-chunk play
outcomes — queue position, not index value, determines playback order. -/
theorem playback_fifo_order (s : PlaybackState) (cs : List AudioChunk) (outs : List Bool)
    (hq : s.audioQueue = []) (hr : s.isProcessing = false) :
    (processAudioQueue (arriveList s cs).1 outs).2 = cs := by
  have ha := arriveList_state cs s
  have hq2 : (arriveList s cs).1.audioQueue = cs := by rw [ha.1, hq]; rfl
  have hr2 : (arriveList s cs).1.isProcessing = false := by rw [ha.2.1, hr]
  rw [processAudioQueue_plays (arriveList s cs).1 outs hr2, hq2]

/-- C4 (witness): three chunks with non-monotonic indices 7, 2, 9 are played
in arrival order. -/
theorem playback_fifo_order_witness :
    (processAudioQueue (arriveList initPlayback [smallChunk 7, smallChunk 2, smallChunk 9]).1 []).2
      = [smallChunk 7, smallChunk 2, smallChunk 9] :=
  playback_fifo_order initPlayback [smallChunk 7, smallChunk 2, smallChunk 9] [] rfl rfl

/-- C5: when the play step for the chunk at queue position `j` fails, the
failure is caught inside `playAudioChunk` and reported through `setError`,
and the drain loop still invokes the play step on every queued chunk
(including those after position `j`) and then exits normally to idle. -/
theorem play_failure_continues (s : PlaybackState) (outs : List Bool) (j : Nat)
    (hr : s.isProcessing = false) (hj : j < s.audioQueue.length)
    (hf : outs.getD j true = false) :
    (processAudioQueue s outs).2 = s.audioQueue
    ∧ (processAudioQueue s outs).1.perr = some PlayErr.chunkPlay
    ∧ (processAudioQueue s outs).1.isProcessing = false
    ∧ (processAudioQueue s outs).1.playbackState = AudioState.idle := by
  have hne : s.audioQueue.isEmpty = false := by
    cases hq : s.audioQueue with
    | nil => rw [hq] at hj; simp at hj
    | cons a b => rfl
  have herr := drainGo_fail_err s.audioQueue outs
    { s with isProcessing := true, playbackState := .playing } j hj hf
  simp only [processAudioQueue, hr, hne, Bool.false_or, Bool.or_false, if_neg]
  refine ⟨drainGo_plays_queue _ _ _, ?_, rfl, rfl⟩
  simpa using herr

/-- C5 (witness): with three queued chunks and the second play failing, all
three chunks are still played and the error is reported. -/
theorem play_failure_continues_witness :
    (processAudioQueue exQueued [true, false, true]).2
      = [smallChunk 1, smallChunk 2, smallChunk 3]
    ∧ (processAudioQueue exQueued [true, false, true]).1.perr = some PlayErr.chunkPlay := by
  have h := play_failure_continues exQueued [true, false, true] 1 rfl (by decide) rfl
  exact ⟨h.1, h.2.1⟩

/-- C6: after any sequence of `sendAudioChunk` calls from a fresh service,
the retained buffer holds exactly the most recent
`AUDIO_CONFIG.chunking.maxChunksInMemory` = 20 chunks (all of them when
fewer were sent), in send order with the oldest evicted first, and
`getBufferedChunks` reports that length, which never exceeds the cap. -/
theorem sendChunk_retains_most_recent (cs : List AudioChunk) :
    (sendAll initService cs).chunkBuffer
      = cs.drop (cs.length - AUDIO_CONFIG.chunking.maxChunksInMemory)
    ∧ getBufferedChunks (sendAll initService cs)
      = min cs.length AUDIO_CONFIG.chunking.maxChunksInMemory
    ∧ getBufferedChunks (sendAll initService cs) ≤ AUDIO_CONFIG.chunking.maxChunksInMemory := by
  have h := sendAll_chunkBuffer cs initService (by simp [initService])
  simp only [show initService.chunkBuffer = [] from rfl, List.nil_append,
    List.length_nil, Nat.zero_add] at h
  refine ⟨h, ?_, ?_⟩
  · show (sendAll initService cs).chunkBuffer.length = min cs.length 20
    rw [h, List.length_drop]
    omega
  · show (sendAll initService cs).chunkBuffer.length ≤ 20
    rw [h, List.length_drop]
    omega

/-- C7: `adjustVolume(v)` with `v` outside `[0, 1]` returns the state
entirely unchanged; with `v` inside `[0, 1]` it persists `v` as the default
volume, applies `v` to the referenced sound when one is loaded, and a chunk
played afterwards is created with volume `v`. -/
theorem adjustVolume_bounds (s : PlaybackState) (v : ℚ) :
    ((v < 0 ∨ 1 < v) → adjustVolume s v = s)
    ∧ (0 ≤ v → v ≤ 1 →
        (adjustVolume s v).volume = v
        ∧ (∀ snd, s.sound = some snd →
            (adjustVolume s v).sound = some { snd with vol := v })
        ∧ (s.sound = none → (adjustVolume s v).sound = none)
        ∧ ∀ c, (playAudioChunk (adjustVolume s v) c true).sound
            = some { sid := c.index, vol := v, loaded := false }) := by
  constructor
  · intro h
    simp only [adjustVolume, if_pos h]
  · intro h0 h1
    have hcond : ¬ (v < 0 ∨ 1 < v) := by
      rintro (hh | hh)
      · exact absurd h0 (not_le.mpr hh)
      · exact absurd h1 (not_le.mpr hh)
    refine ⟨?_, ?_, ?_, ?_⟩
    · simp only [adjustVolume, if_neg hcond]
    · intro snd hsnd
      simp only [adjustVolume, if_neg hcond, hsnd, Option.map_some']
    · intro hnone
      simp only [adjustVolume, if_neg hcond, hnone, Option.map_none']
    · intro c
      simp [playAudioChunk, adjustVolume, if_neg hcond]

/-- C7 (witness): `adjustVolume` at 3/2 is a no-op on a state with a loaded
sound, and at 1/2 it persists the volume and updates that sound. -/
theorem adjustVolume_bounds_witness :
    adjustVolume exPlaybackSound (3 / 2) = exPlaybackSound
    ∧ (adjustVolume exPlaybackSound (1 / 2)).volume = 1 / 2
    ∧ (adjustVolume exPlaybackSound (1 / 2)).sound
      = some { sid := 3, vol := 1 / 2, loaded := true } := by
  refine ⟨?_, ?_, ?_⟩
  · exact (adjustVolume_bounds exPlaybackSound (3 / 2)).1 (Or.inr (by norm_num))
  · exact ((adjustVolume_bounds exPlaybackSound (1 / 2)).2 (by norm_num) (by norm_num)).1
  · exact ((adjustVolume_bounds exPlaybackSound (1 / 2)).2 (by norm_num) (by norm_num)).2.1
      { sid := 3, vol := 1, loaded := true } rfl

theorem isPrefixOf_append_self (l m : List Char) : l.isPrefixOf (l ++ m) = true := by
  induction l with
  | nil => simp [List.isPrefixOf]
  | cons a t ih => simp [List.isPrefixOf, ih]

/-- C8: once at least 10 interval ticks have elapsed, the simulation has
emitted exactly the 10 mock chunks with indices 0..9 in increasing order,
one per tick of the configured period
(`simulateIntervalMs = AUDIO_CONFIG.chunking.chunkDurationMs`), the interval
has been cleared, and any further ticks emit nothing. -/
theorem simulation_emits_ten (n : Nat) (hn : 10 ≤ n) :
    (simRun n simInit).2.map AudioChunk.index = List.range 10
    ∧ (simRun n simInit).1 = { chunkIndex := 10, intervalActive := false }
    ∧ (∀ m, simRun m (simRun n simInit).1 = ((simRun n simInit).1, []))
    ∧ simulateIntervalMs = AUDIO_CONFIG.chunking.chunkDurationMs := by
  have hinit : simInit = { chunkIndex := 0, intervalActive := true } := rfl
  have h := simRun_active n 0 (by omega) (by omega)
  rw [hinit]
  refine ⟨?_, ?_, ?_, rfl⟩
  · rw [List.range_eq_range']
    simpa using h.1
  · exact h.2
  · intro m
    rw [h.2]
    exact simRun_inactive m 10

/-- C8 (witness): after 12 ticks the emitted indices are exactly 0..9 and
the interval is cleared. -/
theorem simulation_emits_ten_witness :
    (simRun 12 simInit).2.map AudioChunk.index = List.range 10
    ∧ (simRun 12 simInit).1 = { chunkIndex := 10, intervalActive := false } := by
  have h := simulation_emits_ten 12 (by omega)
  exact ⟨h.1, h.2.1⟩

/-- C9 (counterexample): with the second chunk's base64 read failing
(caught inside `processAudioChunk`), a session of three finalized chunks
emits only indices 1 and 3: `chunkCountRef` advanced at the second chunk
with no emission, so the emitted indices skip 2 — the second successfully
finalized chunk is never emitted, consecutive emitted indices differ by 2,
and the final chunks-recorded count 3 exceeds the 2 emissions, refuting the
claim at this concrete input. -/
theorem recorded_chunk_indices_cex :
    (runRecordingSession 0 [(some "a", true), (some "b", false), (some "c", true)]).2.map
        AudioChunk.index = [1, 3]
    ∧ (runRecordingSession 0 [(some "a", true), (some "b", false), (some "c", true)]).1 = 3
    ∧ (runRecordingSession 0 [(some "a", true), (some "b", false), (some "c", true)]).2.map
        AudioChunk.index
      ≠ List.range' 1
          (runRecordingSession 0
            [(some "a", true), (some "b", false), (some "c", true)]).2.length
    ∧ (runRecordingSession 0 [(some "a", true), (some "b", false), (some "c", true)]).1
      ≠ (runRecordingSession 0
          [(some "a", true), (some "b", false), (some "c", true)]).2.length := by
  refine ⟨rfl, rfl, by decide, by decide⟩

/-- C9 (amended): over any session starting with `chunkCountRef = 0`,
indices are assigned per successfully finalized chunk starting at 1 and
incrementing by exactly 1, with the counter incremented immediately before
the emission — so an emitted chunk's `index` always equals the updated
chunks-recorded count at the moment of emission (last conjunct), the
emitted indices are strictly increasing, lie between 1 and the final count,
and at most count chunks are emitted; the emitted indices are exactly
1, 2, …, m with the final count equal to m precisely when every finalized
chunk's base64 read succeeds — a finalized chunk whose read fails advances
the counter without being emitted. -/
theorem recorded_chunk_indices (os : List (Option String × Bool)) :
    ((∀ p ∈ os, p.1.isSome = true → p.2 = true) →
      (runRecordingSession 0 os).2.map AudioChunk.index
        = List.range' 1 (runRecordingSession 0 os).2.length
      ∧ (runRecordingSession 0 os).1 = (runRecordingSession 0 os).2.length)
    ∧ List.Pairwise (fun a b => a < b)
        ((runRecordingSession 0 os).2.map AudioChunk.index)
    ∧ (∀ c ∈ (runRecordingSession 0 os).2,
        1 ≤ c.index ∧ c.index ≤ (runRecordingSession 0 os).1)
    ∧ (runRecordingSession 0 os).2.length ≤ (runRecordingSession 0 os).1
    ∧ (∀ count u, stopCurrentChunk count (some u) true
        = (count + 1, some (mkRecordedChunk (count + 1) u))) := by
  have hb := runRecordingSession_bounds os 0
  refine ⟨?_, hb.2.2.1, hb.2.1, ?_, fun count u => rfl⟩
  · intro h
    have ha := runRecordingSession_all_ok os 0 h
    simpa using ha
  · have := hb.2.2.2
    omega

/-- C9 (witness): without read failures the emitted indices are exactly
1, 2 with final count 2; with a failing read in the middle the emitted
indices 1, 3 are still strictly increasing. -/
theorem recorded_chunk_indices_witness :
    ((runRecordingSession 0 [(some "a", true), (none, true), (some "b", true)]).2.map
        AudioChunk.index
      = List.range' 1
          (runRecordingSession 0 [(some "a", true), (none, true), (some "b", true)]).2.length)
    ∧ List.Pairwise (fun a b => a < b)
        ((runRecordingSession 0
            [(some "a", true), (some "b", false), (some "c", true)]).2.map AudioChunk.index) := by
  refine ⟨?_, ?_⟩
  · exact ((recorded_chunk_indices [(some "a", true), (none, true), (some "b", true)]).1
      (by decide)).1
  · exact (recorded_chunk_indices [(some "a", true), (some "b", false), (some "c", true)]).2.1

/-- C10 (counterexample): with the environment variable set to the empty
string — a set but falsy value — `getWebSocketUrl("/ws")` falls back to
`ws://localhost:8000/ws`, which does not begin with `wss://`, refuting the
claim for that set value. -/
theorem websocket_url_empty_env_cex :
    getWebSocketUrl (some []) ['/', 'w', 's'] = "ws://localhost:8000/ws".toList
    ∧ wssProto.isPrefixOf (getWebSocketUrl (some []) ['/', 'w', 's']) = false := by
  exact ⟨rfl, rfl⟩

/-- C10 (amended): whenever the environment variable is set to a non-empty
value `u`, `getWebSocketUrl(endpoint)` is `wss://` followed by `u` with any
leading `ws://` or `wss://` stripped (even when `u` explicitly specified
`ws://`) and then the endpoint, so it begins with `wss://`; when the
variable is unset the localhost fallback yields `ws://localhost:8000` plus
the endpoint, beginning with `ws://`; the empty-string value behaves like
unset. -/
theorem getWebSocketUrl_protocol (u endpoint : List Char) :
    (u ≠ [] →
      getWebSocketUrl (some u) endpoint = wssProto ++ stripProto u ++ endpoint
      ∧ wssProto.isPrefixOf (getWebSocketUrl (some u) endpoint) = true)
    ∧ getWebSocketUrl none endpoint = wsProto ++ "localhost:8000".toList ++ endpoint
    ∧ wsProto.isPrefixOf (getWebSocketUrl none endpoint) = true
    ∧ getWebSocketUrl (some []) endpoint = getWebSocketUrl none endpoint := by
  refine ⟨?_, ?_, ?_, rfl⟩
  · intro h
    cases u with
    | nil => cases h rfl
    | cons a t =>
      have heq : getWebSocketUrl (some (a :: t)) endpoint
          = wssProto ++ stripProto (a :: t) ++ endpoint := rfl
      refine ⟨heq, ?_⟩
      rw [heq, List.append_assoc]
      exact isPrefixOf_append_self _ _
  · rfl
  · have heq : getWebSocketUrl none endpoint
        = wsProto ++ "localhost:8000".toList ++ endpoint := rfl
    rw [heq, List.append_assoc]
    exact isPrefixOf_append_self _ _

/-- C10 (witness): a configured URL that explicitly specifies `ws://` is
rewritten to `wss://` with the old protocol stripped. -/
theorem getWebSocketUrl_protocol_witness :
    "ws://example.com".toList ≠ ([] : List Char)
    ∧ getWebSocketUrl (some "ws://example.com".toList) "/ws".toList
      = "wss://example.com/ws".toList := by
  refine ⟨by decide, ?_⟩
  have h := ((getWebSocketUrl_protocol "ws://example.com".toList "/ws".toList).1 (by decide)).1
  rw [h]
  rfl

end Htn
